import Mathlib

/-!
# accuknox-cli: the `install` command (`cmd/install.go`)

A shallow embedding of the skip-flag validator `validateSkipFlagInput` and of
the `RunE` closure of `installCmd`, followed by the properties proved of them.

The installers of cilium, hubble, kubearmor and the discovery engine are
libraries outside the repository.  They are taken as parameters (`Externals`):
every call receives the current state of the outside world and gives back its
Go result together with the new state.  `RunE` threads that state through the
calls in program order and records every call, with its result, in a trace.
-/

namespace Cmd

/-! ## Errors -/

/-- Value built by `fmt.Errorf(format, a)`: the format string and its single
argument, left unrendered. -/
structure FmtError where
  format : String
  arg : String
deriving DecidableEq, Repr

/-- Go `error` values that `RunE` can return: the one built by the validator, or
an error handed back by an external library (`ε`). -/
inductive GoError (ε : Type) where
  | errorf (e : FmtError)
  | external (e : ε)
deriving DecidableEq, Repr

/-! ## `validateSkipFlagInput` (install.go, lines 34-50) -/

/-- Keys of the map literal `flagInputSet` (line 40). -/
def flagInputSet : List String := ["cilium", "kubearmor", "discoveryengine"]

/-- Format string of the validator's error (line 44). -/
def invalidInputFormat : String :=
  "❌ invalid input %q for skip flag | run  $ accuknox install --help for more"

/-- The loop of lines 42-47: the first element that is not a key of
`flagInputSet` sets `err` and breaks; `err` stays `nil` (`none`) otherwise. -/
def validateSkipFlagInput : List String → Option FmtError
  | [] => none
  | a :: rest =>
    if flagInputSet.contains a then validateSkipFlagInput rest
    else some { format := invalidInputFormat, arg := a }

/-! ## The outside world -/

/-- Fields of `hubble.Parameters` that `RunE` assigns (lines 81-85). -/
structure HubbleParameters where
  Namespace : String
  Relay : Bool
  HelmValuesSecretName : String
  RedactHelmCertKeys : Bool
  CreateCA : Bool
deriving DecidableEq, Repr

deriving instance DecidableEq for Except

/-- One external call made by `RunE`, with what it was given and what it
returned.  `ι` is the type of the cilium installer handle, `η` of the hubble
handle, `ε` of the errors of the external libraries.  A log line is recorded as
an event and leaves the state of the world as it is. -/
inductive Event (ε ι η : Type) where
  /-- `ci.NewK8sInstaller(k8sClient, params)` with `params.Namespace = ns`. -/
  | NewK8sInstaller (ns : String) (res : Except ε ι)
  /-- `installer.Install(ctx)`. -/
  | Install (installer : ι) (res : Option ε)
  /-- `installer.RollbackInstallation(ctx)`. -/
  | RollbackInstallation (installer : ι)
  /-- `log.Error().Msgf(format, err.Error())`. -/
  | LogError (format : String) (err : ε)
  /-- `hubble.NewK8sHubble(k8sClient, hparams)`. -/
  | NewK8sHubble (hparams : HubbleParameters) (h : η)
  /-- `h.Enable(ctx)`. -/
  | Enable (h : η) (res : Option ε)
  /-- `ki.K8sInstaller(client, installOptions)` with
  `installOptions.Namespace = ns`. -/
  | K8sInstaller (ns : String) (res : Option ε)
  /-- `di.DiscoveryEngineInstaller(client, diOptions)` with
  `diOptions.Namespace = ns`. -/
  | DiscoveryEngineInstaller (ns : String) (res : Option ε)
deriving DecidableEq

/-- The external libraries called by `RunE`, as functions of the state `σ` of the
outside world.  A Go `error` result is `none` for `nil`.  The option structs
reach the libraries through their `Namespace` field, the only one `RunE`
writes; the flag-bound fields are constant during a run and are part of the
functions.  `HelmValuesSecretName` is the constant
`defaults.HelmValuesSecretName` of cilium-cli. -/
structure Externals (σ ε ι η : Type) where
  HelmValuesSecretName : String
  NewK8sInstaller : String → σ → Except ε ι × σ
  Install : ι → σ → Option ε × σ
  RollbackInstallation : ι → σ → σ
  NewK8sHubble : HubbleParameters → σ → η × σ
  Enable : η → σ → Option ε × σ
  K8sInstaller : String → σ → Option ε × σ
  DiscoveryEngineInstaller : String → σ → Option ε × σ

/-- State of a run of `RunE`: the outside world, the calls made so far (oldest
first) and the field `cmd.SilenceUsage`. -/
structure Run (σ ε ι η : Type) where
  world : σ
  trace : List (Event ε ι η)
  SilenceUsage : Bool
deriving DecidableEq

variable {σ ε ι η : Type}

/-- The state after external calls `evs` that left the world in state `w`. -/
def Run.after (s : Run σ ε ι η) (w : σ) (evs : List (Event ε ι η)) : Run σ ε ι η :=
  { s with world := w, trace := s.trace ++ evs }

/-! ## `installCmd.RunE` (install.go, lines 57-117)

Each block gives back `some err` where the Go code executes `return err`, and
`none` where control falls through to the next statement. -/

namespace installCmd

/-- Lines 66-90: the cilium block, `nspace` being the global `namespace`. -/
def ciliumBlock (x : Externals σ ε ι η) (skip : List String) (nspace : String)
    (s : Run σ ε ι η) : Option (GoError ε) × Run σ ε ι η :=
  if !skip.contains "cilium" then
    match x.NewK8sInstaller nspace s.world with
    | (.error err, w1) =>
      (some (.external err), s.after w1 [.NewK8sInstaller nspace (.error err)])
    | (.ok installer, w1) =>
      let s1 : Run σ ε ι η :=
        { s.after w1 [.NewK8sInstaller nspace (.ok installer)] with SilenceUsage := true }
      let s2 : Run σ ε ι η :=
        match x.Install installer s1.world with
        | (some err, w2) =>
          (s1.after w2 [.Install installer (some err)]).after
            (x.RollbackInstallation installer w2)
            [.RollbackInstallation installer, .LogError "Unable to install Cilium: %s" err]
        | (none, w2) => s1.after w2 [.Install installer none]
      let hparams : HubbleParameters :=
        { Namespace := nspace
          Relay := true
          HelmValuesSecretName := x.HelmValuesSecretName
          RedactHelmCertKeys := true
          CreateCA := true }
      match x.NewK8sHubble hparams s2.world with
      | (h, w3) =>
        let s3 := s2.after w3 [.NewK8sHubble hparams h]
        match x.Enable h s3.world with
        | (some err, w4) =>
          (none, s3.after w4 [.Enable h (some err), .LogError "Unable to enable Hubble: %s" err])
        | (none, w4) => (none, s3.after w4 [.Enable h none])
  else (none, s)

/-- Lines 92-98: the kubearmor block. -/
def kubearmorBlock (x : Externals σ ε ι η) (skip : List String) (nspace : String)
    (s : Run σ ε ι η) : Option (GoError ε) × Run σ ε ι η :=
  if !skip.contains "kubearmor" then
    match x.K8sInstaller nspace s.world with
    | (some err, w1) => (some (.external err), s.after w1 [.K8sInstaller nspace (some err)])
    | (none, w1) => (none, s.after w1 [.K8sInstaller nspace none])
  else (none, s)

/-- Lines 100-114: the discovery-engine block. -/
def discoveryEngineBlock (x : Externals σ ε ι η) (skip : List String) (nspace : String)
    (s : Run σ ε ι η) : Option (GoError ε) × Run σ ε ι η :=
  if !skip.contains "discoveryengine" then
    match x.DiscoveryEngineInstaller nspace s.world with
    | (some err, w1) =>
      (some (.external err), s.after w1 [.DiscoveryEngineInstaller nspace (some err)])
    | (none, w1) => (none, s.after w1 [.DiscoveryEngineInstaller nspace none])
  else (none, s)

/-- The closure `RunE` of `installCmd` (lines 57-117), run on the globals `skip`
and `namespace` from the world state `w`: the returned error (`none` for `nil`)
and the final state of the run.  `cmd.SilenceUsage` starts at `false`, the zero
value that the literal of lines 53-56 leaves it at. -/
def RunE (x : Externals σ ε ι η) (skip : List String) (nspace : String) (w : σ) :
    Option (GoError ε) × Run σ ε ι η :=
  let s0 : Run σ ε ι η := { world := w, trace := [], SilenceUsage := false }
  match validateSkipFlagInput skip with
  | some err => (some (.errorf err), s0)
  | none =>
    match ciliumBlock x skip nspace s0 with
    | (some err, s1) => (some err, s1)
    | (none, s1) =>
      match kubearmorBlock x skip nspace s1 with
      | (some err, s2) => (some err, s2)
      | (none, s2) =>
        match discoveryEngineBlock x skip nspace s2 with
        | (some err, s3) => (some err, s3)
        | (none, s3) => (none, s3)

end installCmd

/-! ## Trace fragments

The events that the cilium block appends to the trace, as functions of the
results of the calls; the lemmas on `ciliumBlock` are stated with them. -/

/-- Events of lines 74-78 when `installer.Install` returns `res`. -/
def installEvents (installer : ι) : Option ε → List (Event ε ι η)
  | some err =>
    [.Install installer (some err), .RollbackInstallation installer,
      .LogError "Unable to install Cilium: %s" err]
  | none => [.Install installer none]

/-- Events of lines 87-89 when `h.Enable` returns `res`. -/
def enableEvents (h : η) : Option ε → List (Event ε ι η)
  | some err => [.Enable h (some err), .LogError "Unable to enable Hubble: %s" err]
  | none => [.Enable h none]

/-- The world after lines 74-78, `installer.Install` having returned `res` and
left the world in state `w`: rolled back when `res` is an error. -/
def worldAfterInstall (x : Externals σ ε ι η) (installer : ι) (res : Option ε) (w : σ) : σ :=
  match res with
  | some _ => x.RollbackInstallation installer w
  | none => w

/-- The value of `hparams` handed to `hubble.NewK8sHubble` (lines 81-86). -/
def hubbleParams (x : Externals σ ε ι η) (nspace : String) : HubbleParameters :=
  { Namespace := nspace
    Relay := true
    HelmValuesSecretName := x.HelmValuesSecretName
    RedactHelmCertKeys := true
    CreateCA := true }

/-- Lines 92-116 of `RunE`, from the state `s` reached after the cilium block:
the kubearmor block, the discovery-engine block and `return nil`. -/
def afterCilium (x : Externals σ ε ι η) (skip : List String) (nspace : String)
    (s : Run σ ε ι η) : Option (GoError ε) × Run σ ε ι η :=
  match installCmd.kubearmorBlock x skip nspace s with
  | (some err, s2) => (some err, s2)
  | (none, s2) =>
    match installCmd.discoveryEngineBlock x skip nspace s2 with
    | (some err, s3) => (some err, s3)
    | (none, s3) => (none, s3)

/-! ## Comparing runs that differ in the result of `Enable` -/

/-- The same external libraries, except that `h.Enable` returns `r`; its effect on
the world is kept. -/
def Externals.withEnableResult (x : Externals σ ε ι η) (r : Option ε) : Externals σ ε ι η :=
  { x with Enable := fun h w => (r, (x.Enable h w).2) }

/-- Erases from an event what depends on the result of `h.Enable`: the result
itself, and the log line of line 88. -/
def Event.forgetEnableResult : Event ε ι η → Option (Event ε ι η)
  | .Enable h _ => some (.Enable h none)
  | .LogError format err =>
    if format = "Unable to enable Hubble: %s" then none else some (.LogError format err)
  | ev => some ev

/-! ## Sample worlds -/

/-- A world whose state counts the calls that reached the cluster, and in which
each external call returns a fixed result: `newErr` for `ci.NewK8sInstaller`
(the installer handle is `7` on success, the hubble handle is `9`),
`installErr`, `enableErr`, `kubearmorErr` and `discoveryErr` for the others. -/
def fixedWorld (newErr installErr enableErr kubearmorErr discoveryErr : Option String) :
    Externals Nat String Nat Nat where
  HelmValuesSecretName := "cilium-cli-helm-values"
  NewK8sInstaller := fun _ w =>
    match newErr with
    | some e => (.error e, w + 1)
    | none => (.ok 7, w + 1)
  Install := fun _ w => (installErr, w + 1)
  RollbackInstallation := fun _ w => w + 1
  NewK8sHubble := fun _ w => (9, w)
  Enable := fun _ w => (enableErr, w + 1)
  K8sInstaller := fun _ w => (kubearmorErr, w + 1)
  DiscoveryEngineInstaller := fun _ w => (discoveryErr, w + 1)

/-! ## Properties of `validateSkipFlagInput` -/

theorem flagInputSet_contains (a : String) :
    flagInputSet.contains a = true ↔
      (a = "cilium" ∨ a = "kubearmor" ∨ a = "discoveryengine") := by
  simp [flagInputSet]

theorem validateSkipFlagInput_eq_none (l : List String) :
    validateSkipFlagInput l = none ↔
      ∀ a ∈ l, a = "cilium" ∨ a = "kubearmor" ∨ a = "discoveryengine" := by
  induction l with
  | nil => simp [validateSkipFlagInput]
  | cons b rest ih =>
    by_cases hb : flagInputSet.contains b = true
    · have hb2 := (flagInputSet_contains b).mp hb
      rw [validateSkipFlagInput, if_pos hb, ih]
      simp [hb2]
    · have hb2 : ¬ (b = "cilium" ∨ b = "kubearmor" ∨ b = "discoveryengine") :=
        fun h => hb ((flagInputSet_contains b).mpr h)
      rw [validateSkipFlagInput, if_neg hb]
      simp only [List.mem_cons, forall_eq_or_imp]
      constructor
      · intro h; cases h
      · intro h; exact absurd h.1 hb2

/-- C1: a skip list (empty, or with repeated names) whose elements are all among
`"cilium"`, `"kubearmor"` and `"discoveryengine"` passes validation:
`validateSkipFlagInput` returns `nil`. -/
theorem validateSkipFlagInput_allowed (l : List String)
    (h : ∀ a ∈ l, a = "cilium" ∨ a = "kubearmor" ∨ a = "discoveryengine") :
    validateSkipFlagInput l = none :=
  (validateSkipFlagInput_eq_none l).mpr h

theorem validateSkipFlagInput_allowed_witness :
    validateSkipFlagInput ["kubearmor", "cilium", "kubearmor", "discoveryengine"] = none ∧
      validateSkipFlagInput [] = none :=
  ⟨validateSkipFlagInput_allowed _ (by decide), validateSkipFlagInput_allowed [] (by simp)⟩

/-- C2: a skip list with at least one element outside the vocabulary fails
validation, and the error names the first such element in input order: the
list splits as `pre ++ a :: suf` with `pre` inside the vocabulary and `a`
outside it, and the error is `fmt.Errorf(invalidInputFormat, a)`, whatever
`suf` holds. -/
theorem validateSkipFlagInput_first_invalid (l : List String)
    (h : ∃ a ∈ l, ¬ (a = "cilium" ∨ a = "kubearmor" ∨ a = "discoveryengine")) :
    ∃ pre a suf, l = pre ++ a :: suf ∧
      (∀ b ∈ pre, b = "cilium" ∨ b = "kubearmor" ∨ b = "discoveryengine") ∧
      ¬ (a = "cilium" ∨ a = "kubearmor" ∨ a = "discoveryengine") ∧
      validateSkipFlagInput l = some { format := invalidInputFormat, arg := a } := by
  induction l with
  | nil => obtain ⟨a, ha, _⟩ := h; cases ha
  | cons b rest ih =>
    by_cases hb : flagInputSet.contains b = true
    · have hb2 := (flagInputSet_contains b).mp hb
      have hrest : ∃ a ∈ rest, ¬ (a = "cilium" ∨ a = "kubearmor" ∨ a = "discoveryengine") := by
        obtain ⟨a, ha, hna⟩ := h
        rcases List.mem_cons.mp ha with rfl | ha
        · exact absurd hb2 hna
        · exact ⟨a, ha, hna⟩
      obtain ⟨pre, a, suf, hl, hpre, hna, hv⟩ := ih hrest
      refine ⟨b :: pre, a, suf, by simp [hl], ?_, hna, ?_⟩
      · intro c hc
        rcases List.mem_cons.mp hc with rfl | hc
        · exact hb2
        · exact hpre c hc
      · rw [validateSkipFlagInput, if_pos hb, hv]
    · have hb2 : ¬ (b = "cilium" ∨ b = "kubearmor" ∨ b = "discoveryengine") :=
        fun h => hb ((flagInputSet_contains b).mpr h)
      refine ⟨[], b, rest, rfl, by simp, hb2, ?_⟩
      rw [validateSkipFlagInput, if_neg hb]

theorem validateSkipFlagInput_first_invalid_witness :
    ∃ pre a suf, ["cilium", "networking", "kubearmor", "hubble"] = pre ++ a :: suf ∧
      (∀ b ∈ pre, b = "cilium" ∨ b = "kubearmor" ∨ b = "discoveryengine") ∧
      ¬ (a = "cilium" ∨ a = "kubearmor" ∨ a = "discoveryengine") ∧
      validateSkipFlagInput ["cilium", "networking", "kubearmor", "hubble"] =
        some { format := invalidInputFormat, arg := a } :=
  validateSkipFlagInput_first_invalid ["cilium", "networking", "kubearmor", "hubble"]
    ⟨"hubble", by decide, by decide⟩

/-! ## The blocks of `RunE`, case by case -/

namespace installCmd

theorem ciliumBlock_cases (x : Externals σ ε ι η) (skip : List String) (nspace : String)
    (s : Run σ ε ι η) :
    (skip.contains "cilium" = true ∧ ciliumBlock x skip nspace s = (none, s)) ∨
    (skip.contains "cilium" = false ∧ ∃ e w1,
      x.NewK8sInstaller nspace s.world = (.error e, w1) ∧
      ciliumBlock x skip nspace s =
        (some (.external e),
          { world := w1, trace := s.trace ++ [.NewK8sInstaller nspace (.error e)],
            SilenceUsage := s.SilenceUsage })) ∨
    (skip.contains "cilium" = false ∧ ∃ i w1 ri w2 h w3 re w4,
      x.NewK8sInstaller nspace s.world = (.ok i, w1) ∧
      x.Install i w1 = (ri, w2) ∧
      x.NewK8sHubble (hubbleParams x nspace) (worldAfterInstall x i ri w2) = (h, w3) ∧
      x.Enable h w3 = (re, w4) ∧
      ciliumBlock x skip nspace s =
        (none,
          { world := w4,
            trace := s.trace ++ (.NewK8sInstaller nspace (.ok i) :: installEvents i ri ++
              .NewK8sHubble (hubbleParams x nspace) h :: enableEvents h re),
            SilenceUsage := true })) := by
  by_cases hc : skip.contains "cilium" = true
  · left
    exact ⟨hc, by simp only [ciliumBlock, hc, Bool.not_true, Bool.false_eq_true, if_false]⟩
  · right
    have hc2 : skip.contains "cilium" = false := by simpa using hc
    rcases hN : x.NewK8sInstaller nspace s.world with ⟨e | i, w1⟩
    · left
      refine ⟨hc2, e, w1, rfl, ?_⟩
      simp only [ciliumBlock, hc2, Bool.not_false, if_true, hN, Run.after]
    · right
      rcases hI : x.Install i w1 with ⟨ri, w2⟩
      rcases hH : x.NewK8sHubble (hubbleParams x nspace) (worldAfterInstall x i ri w2)
        with ⟨h, w3⟩
      rcases hE : x.Enable h w3 with ⟨re, w4⟩
      refine ⟨hc2, i, w1, ri, w2, h, w3, re, w4, rfl, hI, hH, hE, ?_⟩
      have hm : "cilium" ∉ skip := by simpa using hc2
      cases ri <;> cases re <;>
        simp only [hubbleParams, worldAfterInstall] at hH <;>
        simp [ciliumBlock, hm, hN, hI, hH, hE, hubbleParams, Run.after, installEvents,
          enableEvents]

theorem kubearmorBlock_cases (x : Externals σ ε ι η) (skip : List String) (nspace : String)
    (s : Run σ ε ι η) :
    (skip.contains "kubearmor" = true ∧ kubearmorBlock x skip nspace s = (none, s)) ∨
    (skip.contains "kubearmor" = false ∧ ∃ r w1,
      x.K8sInstaller nspace s.world = (r, w1) ∧
      kubearmorBlock x skip nspace s =
        (r.map .external,
          { world := w1, trace := s.trace ++ [.K8sInstaller nspace r],
            SilenceUsage := s.SilenceUsage })) := by
  by_cases hc : skip.contains "kubearmor" = true
  · left
    exact ⟨hc, by simp only [kubearmorBlock, hc, Bool.not_true, Bool.false_eq_true, if_false]⟩
  · right
    have hc2 : skip.contains "kubearmor" = false := by simpa using hc
    rcases hK : x.K8sInstaller nspace s.world with ⟨r, w1⟩
    refine ⟨hc2, r, w1, rfl, ?_⟩
    cases r <;> simp only [kubearmorBlock, hc2, Bool.not_false, if_true, hK, Run.after] <;> rfl

theorem discoveryEngineBlock_cases (x : Externals σ ε ι η) (skip : List String)
    (nspace : String) (s : Run σ ε ι η) :
    (skip.contains "discoveryengine" = true ∧
      discoveryEngineBlock x skip nspace s = (none, s)) ∨
    (skip.contains "discoveryengine" = false ∧ ∃ r w1,
      x.DiscoveryEngineInstaller nspace s.world = (r, w1) ∧
      discoveryEngineBlock x skip nspace s =
        (r.map .external,
          { world := w1, trace := s.trace ++ [.DiscoveryEngineInstaller nspace r],
            SilenceUsage := s.SilenceUsage })) := by
  by_cases hc : skip.contains "discoveryengine" = true
  · left
    exact ⟨hc, by
      simp only [discoveryEngineBlock, hc, Bool.not_true, Bool.false_eq_true, if_false]⟩
  · right
    have hc2 : skip.contains "discoveryengine" = false := by simpa using hc
    rcases hK : x.DiscoveryEngineInstaller nspace s.world with ⟨r, w1⟩
    refine ⟨hc2, r, w1, rfl, ?_⟩
    cases r <;>
      simp only [discoveryEngineBlock, hc2, Bool.not_false, if_true, hK, Run.after] <;> rfl

theorem afterCilium_cases (x : Externals σ ε ι η) (skip : List String) (nspace : String)
    (s : Run σ ε ι η) :
    (skip.contains "kubearmor" = true ∧ skip.contains "discoveryengine" = true ∧
      afterCilium x skip nspace s = (none, s)) ∨
    (skip.contains "kubearmor" = true ∧ skip.contains "discoveryengine" = false ∧ ∃ rd w1,
      x.DiscoveryEngineInstaller nspace s.world = (rd, w1) ∧
      afterCilium x skip nspace s =
        (rd.map .external,
          { world := w1, trace := s.trace ++ [.DiscoveryEngineInstaller nspace rd],
            SilenceUsage := s.SilenceUsage })) ∨
    (skip.contains "kubearmor" = false ∧ ∃ e w1,
      x.K8sInstaller nspace s.world = (some e, w1) ∧
      afterCilium x skip nspace s =
        (some (.external e),
          { world := w1, trace := s.trace ++ [.K8sInstaller nspace (some e)],
            SilenceUsage := s.SilenceUsage })) ∨
    (skip.contains "kubearmor" = false ∧ skip.contains "discoveryengine" = true ∧ ∃ w1,
      x.K8sInstaller nspace s.world = (none, w1) ∧
      afterCilium x skip nspace s =
        (none,
          { world := w1, trace := s.trace ++ [.K8sInstaller nspace none],
            SilenceUsage := s.SilenceUsage })) ∨
    (skip.contains "kubearmor" = false ∧ skip.contains "discoveryengine" = false ∧
      ∃ w1 rd w2,
      x.K8sInstaller nspace s.world = (none, w1) ∧
      x.DiscoveryEngineInstaller nspace w1 = (rd, w2) ∧
      afterCilium x skip nspace s =
        (rd.map .external,
          { world := w2,
            trace := s.trace ++ [.K8sInstaller nspace none, .DiscoveryEngineInstaller nspace rd],
            SilenceUsage := s.SilenceUsage })) := by
  rcases kubearmorBlock_cases x skip nspace s with ⟨hk, hK⟩ | ⟨hk, rk, w1, hKc, hK⟩
  · rcases discoveryEngineBlock_cases x skip nspace s with ⟨hd, hD⟩ | ⟨hd, rd, w2, hDc, hD⟩
    · exact Or.inl ⟨hk, hd, by simp only [afterCilium, hK, hD]⟩
    · refine Or.inr (Or.inl ⟨hk, hd, rd, w2, hDc, ?_⟩)
      cases rd <;> simp only [afterCilium, hK, hD, Option.map]
  · cases rk with
    | some e =>
      refine Or.inr (Or.inr (Or.inl ⟨hk, e, w1, hKc, ?_⟩))
      simp only [afterCilium, hK, Option.map]
    | none =>
      rcases discoveryEngineBlock_cases x skip nspace
        { world := w1, trace := s.trace ++ [.K8sInstaller nspace none],
          SilenceUsage := s.SilenceUsage } with ⟨hd, hD⟩ | ⟨hd, rd, w2, hDc, hD⟩
      · refine Or.inr (Or.inr (Or.inr (Or.inl ⟨hk, hd, w1, hKc, ?_⟩)))
        simp only [afterCilium, hK, hD, Option.map]
      · refine Or.inr (Or.inr (Or.inr (Or.inr ⟨hk, hd, w1, rd, w2, hKc, hDc, ?_⟩)))
        cases rd <;>
          simp only [afterCilium, hK, hD, Option.map, List.append_assoc, List.singleton_append]

theorem afterCilium_spec (x : Externals σ ε ι η) (skip : List String) (nspace : String)
    (s : Run σ ε ι η) :
    ∃ t : List (Event ε ι η),
      (∀ ev ∈ t, (∃ r, ev = .K8sInstaller nspace r) ∨
        (∃ r, ev = .DiscoveryEngineInstaller nspace r)) ∧
      ∀ (y : Externals σ ε ι η) (tr : List (Event ε ι η)) (su : Bool),
        y.K8sInstaller = x.K8sInstaller →
        y.DiscoveryEngineInstaller = x.DiscoveryEngineInstaller →
        afterCilium y skip nspace { world := s.world, trace := tr, SilenceUsage := su } =
          ((afterCilium x skip nspace s).1,
            { world := (afterCilium x skip nspace s).2.world, trace := tr ++ t,
              SilenceUsage := su }) := by
  rcases afterCilium_cases x skip nspace s
    with ⟨hk, hd, hA⟩ | ⟨hk, hd, rd, w1, hDc, hA⟩ | ⟨hk, e, w1, hKc, hA⟩ |
      ⟨hk, hd, w1, hKc, hA⟩ | ⟨hk, hd, w1, rd, w2, hKc, hDc, hA⟩
  · refine ⟨[], by simp, ?_⟩
    intro y tr su hyK hyD
    simp only [hA, afterCilium, kubearmorBlock, discoveryEngineBlock, hk, hd, Bool.not_true,
      Bool.false_eq_true, if_false, List.append_nil]
  · refine ⟨[.DiscoveryEngineInstaller nspace rd], by simp, ?_⟩
    intro y tr su hyK hyD
    cases rd <;>
      simp only [hA, afterCilium, kubearmorBlock, discoveryEngineBlock, hk, hd, Bool.not_true,
        Bool.not_false, Bool.false_eq_true, if_false, if_true, hyD, hDc, Run.after, Option.map]
  · refine ⟨[.K8sInstaller nspace (some e)], by simp, ?_⟩
    intro y tr su hyK hyD
    simp only [hA, afterCilium, kubearmorBlock, hk, Bool.not_false, if_true, hyK, hKc,
      Run.after]
  · refine ⟨[.K8sInstaller nspace none], by simp, ?_⟩
    intro y tr su hyK hyD
    simp only [hA, afterCilium, kubearmorBlock, discoveryEngineBlock, hk, hd, Bool.not_true,
      Bool.not_false, Bool.false_eq_true, if_false, if_true, hyK, hKc, Run.after]
  · refine ⟨[.K8sInstaller nspace none, .DiscoveryEngineInstaller nspace rd], by simp, ?_⟩
    intro y tr su hyK hyD
    cases rd <;>
      simp only [hA, afterCilium, kubearmorBlock, discoveryEngineBlock, hk, hd,
        Bool.not_false, if_true, hyK, hyD, hKc, hDc, Run.after, Option.map,
        List.append_assoc, List.singleton_append]

theorem RunE_of_invalid (x : Externals σ ε ι η) (skip : List String) (nspace : String)
    (w : σ) (v : FmtError) (hv : validateSkipFlagInput skip = some v) :
    RunE x skip nspace w =
      (some (.errorf v), { world := w, trace := [], SilenceUsage := false }) := by
  simp only [RunE, hv]

theorem RunE_of_valid (x : Externals σ ε ι η) (skip : List String) (nspace : String)
    (w : σ) (hv : validateSkipFlagInput skip = none) :
    RunE x skip nspace w =
      match ciliumBlock x skip nspace { world := w, trace := [], SilenceUsage := false } with
      | (some err, s1) => (some err, s1)
      | (none, s1) => afterCilium x skip nspace s1 := by
  simp only [RunE, hv, afterCilium]

/-! ## Properties of `RunE` -/

/-- C7: when the skip list holds a name outside the vocabulary, `RunE` returns the
error of `validateSkipFlagInput` and makes no external call: the trace is empty
and the world is the one it started from, whichever components the list
leaves unskipped. -/
theorem RunE_invalid_skip (x : Externals σ ε ι η) (skip : List String) (nspace : String)
    (w : σ)
    (h : ∃ a ∈ skip, ¬ (a = "cilium" ∨ a = "kubearmor" ∨ a = "discoveryengine")) :
    ∃ v, validateSkipFlagInput skip = some v ∧
      RunE x skip nspace w =
        (some (.errorf v), { world := w, trace := [], SilenceUsage := false }) := by
  rcases hv : validateSkipFlagInput skip with _ | v
  · obtain ⟨a, ha, hna⟩ := h
    exact absurd ((validateSkipFlagInput_eq_none skip).mp hv a ha) hna
  · exact ⟨v, rfl, RunE_of_invalid x skip nspace w v hv⟩

theorem RunE_invalid_skip_witness :
    ∃ v, validateSkipFlagInput ["kubearmor", "networking"] = some v ∧
      RunE (fixedWorld none none none none none) ["kubearmor", "networking"] "kube-system" 0 =
        (some (.errorf v), { world := 0, trace := [], SilenceUsage := false }) :=
  RunE_invalid_skip (fixedWorld none none none none none) ["kubearmor", "networking"]
    "kube-system" 0 ⟨"networking", by decide, by decide⟩

/-- C6: when the skip list is made of the three names `"cilium"`, `"kubearmor"` and
`"discoveryengine"`, in any order and with or without repetitions, `RunE`
returns `nil` without any external call: the trace is empty and the world is
unchanged. -/
theorem RunE_all_skipped (x : Externals σ ε ι η) (skip : List String) (nspace : String)
    (w : σ)
    (h : ∀ a, a ∈ skip ↔ (a = "cilium" ∨ a = "kubearmor" ∨ a = "discoveryengine")) :
    RunE x skip nspace w = (none, { world := w, trace := [], SilenceUsage := false }) := by
  have hv : validateSkipFlagInput skip = none :=
    (validateSkipFlagInput_eq_none skip).mpr (fun a ha => (h a).mp ha)
  have hc : skip.contains "cilium" = true := by simpa using (h "cilium").mpr (by simp)
  have hk : skip.contains "kubearmor" = true := by simpa using (h "kubearmor").mpr (by simp)
  have hd : skip.contains "discoveryengine" = true := by
    simpa using (h "discoveryengine").mpr (by simp)
  simp only [RunE, hv, ciliumBlock, kubearmorBlock, discoveryEngineBlock, hc, hk, hd,
    Bool.not_true, Bool.false_eq_true, if_false]

theorem RunE_all_skipped_witness :
    RunE (fixedWorld (some "a") (some "b") (some "c") (some "d") (some "e"))
        ["kubearmor", "discoveryengine", "kubearmor", "cilium"] "kube-system" 0 =
      (none, { world := 0, trace := [], SilenceUsage := false }) :=
  RunE_all_skipped _ _ _ _ (by
    intro a
    simp only [List.mem_cons, List.mem_singleton, List.not_mem_nil, or_false]
    tauto)

/-- C8 (as stated, refuted): `validateSkipFlagInput` applied to `["cilium"]` returns
`nil`, not a validation error. -/
theorem validateSkipFlagInput_cilium_accepted :
    validateSkipFlagInput ["cilium"] = none := by
  decide

/-- C8 (amended): the skip input `cilium` is accepted.  `RunE` on the skip list
`["cilium"]` does not return a validation error, makes no cilium or hubble call,
and its first external call is the kubearmor installer. -/
theorem RunE_skip_cilium (x : Externals σ ε ι η) (nspace : String) (w : σ) :
    (∀ v, (RunE x ["cilium"] nspace w).1 ≠ some (.errorf v)) ∧
      ∃ r rest, (RunE x ["cilium"] nspace w).2.trace = .K8sInstaller nspace r :: rest ∧
        (rest = [] ∨ ∃ r2, rest = [.DiscoveryEngineInstaller nspace r2]) := by
  have hv : validateSkipFlagInput ["cilium"] = none := by decide
  rw [RunE_of_valid x _ nspace w hv]
  rcases ciliumBlock_cases x ["cilium"] nspace { world := w, trace := [], SilenceUsage := false }
    with ⟨_, hC⟩ | ⟨hc, _⟩ | ⟨hc, _⟩
  · simp only [hC]
    rcases afterCilium_cases x ["cilium"] nspace
        { world := w, trace := [], SilenceUsage := false }
      with ⟨hk, _⟩ | ⟨hk, _⟩ | ⟨_, e, w1, _, hA⟩ | ⟨_, hd, _⟩ | ⟨_, _, w1, rd, w2, _, _, hA⟩
    · exact absurd hk (by decide)
    · exact absurd hk (by decide)
    · simp only [hA]
      exact ⟨by simp, some e, [], by simp, Or.inl rfl⟩
    · exact absurd hd (by decide)
    · simp only [hA]
      refine ⟨?_, none, [.DiscoveryEngineInstaller nspace rd], by simp, Or.inr ⟨rd, rfl⟩⟩
      cases rd <;> simp
  · exact absurd hc (by decide)
  · exact absurd hc (by decide)

/-- C3 (as stated, refuted): with an empty skip list and a world in which only
`ci.NewK8sInstaller` fails, `RunE` returns that error although validation
passes and neither the kubearmor nor the discovery-engine installer fails:
the only call made is the failed construction of the cilium installer. -/
theorem RunE_constructor_failure_returned :
    validateSkipFlagInput [] = none ∧
      RunE (fixedWorld (some "no cluster") none none none none) [] "kube-system" 0 =
        (some (.external "no cluster"),
          { world := 1, trace := [.NewK8sInstaller "kube-system" (.error "no cluster")],
            SilenceUsage := false }) := by
  decide

/-- C3 (amended): `RunE` returns an error only when skip-flag validation fails, when
the construction of the cilium installer (`ci.NewK8sInstaller`) fails, when the
kubearmor installer fails or when the discovery-engine installer fails; the
error returned is the validator's, or that of the failed call, which is then
the last call of the run.  Errors of `Install` and of `Enable` are never
returned. -/
theorem RunE_error_sources (x : Externals σ ε ι η) (skip : List String) (nspace : String)
    (w : σ) (err : GoError ε) (h : (RunE x skip nspace w).1 = some err) :
    (∃ v, validateSkipFlagInput skip = some v ∧ err = .errorf v) ∨
    (∃ e, err = .external e ∧
      ((RunE x skip nspace w).2.trace.getLast? = some (.NewK8sInstaller nspace (.error e)) ∨
       (RunE x skip nspace w).2.trace.getLast? = some (.K8sInstaller nspace (some e)) ∨
       (RunE x skip nspace w).2.trace.getLast? =
         some (.DiscoveryEngineInstaller nspace (some e)))) := by
  rcases hv : validateSkipFlagInput skip with _ | v
  · right
    rw [RunE_of_valid x skip nspace w hv] at h ⊢
    have key : ∀ s : Run σ ε ι η, (afterCilium x skip nspace s).1 = some err →
        ∃ e, err = .external e ∧
          ((afterCilium x skip nspace s).2.trace.getLast? =
              some (.NewK8sInstaller nspace (.error e)) ∨
           (afterCilium x skip nspace s).2.trace.getLast? =
              some (.K8sInstaller nspace (some e)) ∨
           (afterCilium x skip nspace s).2.trace.getLast? =
              some (.DiscoveryEngineInstaller nspace (some e))) := by
      intro s hs
      rcases afterCilium_cases x skip nspace s
        with ⟨_, _, hA⟩ | ⟨_, _, rd, w1, _, hA⟩ | ⟨_, e, w1, _, hA⟩ | ⟨_, _, w1, _, hA⟩ |
          ⟨_, _, w1, rd, w2, _, _, hA⟩
      · rw [hA] at hs; cases hs
      · rw [hA] at hs ⊢
        cases rd with
        | none => cases hs
        | some e => exact ⟨e, by simpa using hs.symm, by simp⟩
      · rw [hA] at hs ⊢
        exact ⟨e, by simpa using hs.symm, by simp⟩
      · rw [hA] at hs; cases hs
      · rw [hA] at hs ⊢
        cases rd with
        | none => cases hs
        | some e => exact ⟨e, by simpa using hs.symm, by simp⟩
    rcases ciliumBlock_cases x skip nspace { world := w, trace := [], SilenceUsage := false }
      with ⟨_, hC⟩ | ⟨_, e, w1, _, hC⟩ | ⟨_, i, w1, ri, w2, hh, w3, re, w4, _, _, _, _, hC⟩
    · simp only [hC] at h ⊢
      exact key _ h
    · simp only [hC] at h ⊢
      exact ⟨e, by simpa using h.symm, by simp⟩
    · simp only [hC] at h ⊢
      exact key _ h
  · left
    rw [RunE_of_invalid x skip nspace w v hv] at h
    exact ⟨v, rfl, by simpa using h.symm⟩

theorem RunE_error_sources_witness :
    (∃ v, validateSkipFlagInput ["cilium"] = some v ∧
        GoError.external (ε := String) "image pull" = .errorf v) ∨
    (∃ e, GoError.external "image pull" = .external e ∧
      ((RunE (fixedWorld none none none (some "image pull") none) ["cilium"] "kube-system"
          0).2.trace.getLast? = some (.NewK8sInstaller "kube-system" (.error e)) ∨
       (RunE (fixedWorld none none none (some "image pull") none) ["cilium"] "kube-system"
          0).2.trace.getLast? = some (.K8sInstaller "kube-system" (some e)) ∨
       (RunE (fixedWorld none none none (some "image pull") none) ["cilium"] "kube-system"
          0).2.trace.getLast? = some (.DiscoveryEngineInstaller "kube-system" (some e)))) :=
  RunE_error_sources (fixedWorld none none none (some "image pull") none) ["cilium"]
    "kube-system" 0 (.external "image pull") (by decide)

/-! ## The run, call by call

With the result of every call named, the value of `RunE` is determined: the
hypotheses below give, for each call, the world it was made in, what it returned
and the world it left. -/

theorem RunE_cilium_path (x : Externals σ ε ι η) (skip : List String) (nspace : String)
    (w w1 w2 w3 w4 : σ) (i : ι) (ri : Option ε) (h : η) (re : Option ε)
    (hv : validateSkipFlagInput skip = none)
    (hc : skip.contains "cilium" = false)
    (hN : x.NewK8sInstaller nspace w = (.ok i, w1))
    (hI : x.Install i w1 = (ri, w2))
    (hH : x.NewK8sHubble (hubbleParams x nspace) (worldAfterInstall x i ri w2) = (h, w3))
    (hE : x.Enable h w3 = (re, w4)) :
    RunE x skip nspace w =
      afterCilium x skip nspace
        { world := w4,
          trace := .NewK8sInstaller nspace (.ok i) :: installEvents i ri ++
            .NewK8sHubble (hubbleParams x nspace) h :: enableEvents h re,
          SilenceUsage := true } := by
  rw [RunE_of_valid x skip nspace w hv]
  rcases ciliumBlock_cases x skip nspace { world := w, trace := [], SilenceUsage := false }
    with ⟨hc', _⟩ | ⟨_, e', w1', hN', _⟩ |
      ⟨_, i', w1', ri', w2', h', w3', re', w4', hN', hI', hH', hE', hC⟩
  · rw [hc] at hc'; cases hc'
  · rw [hN] at hN'; cases hN'
  · rw [hN] at hN'
    cases hN'
    rw [hI] at hI'
    cases hI'
    rw [hH] at hH'
    cases hH'
    rw [hE] at hE'
    cases hE'
    simp only [hC, List.nil_append]

theorem afterCilium_kubearmor_failed (x : Externals σ ε ι η) (skip : List String)
    (nspace : String) (s : Run σ ε ι η) (w5 : σ) (e : ε)
    (hk : skip.contains "kubearmor" = false)
    (hK : x.K8sInstaller nspace s.world = (some e, w5)) :
    afterCilium x skip nspace s =
      (some (.external e),
        { world := w5, trace := s.trace ++ [.K8sInstaller nspace (some e)],
          SilenceUsage := s.SilenceUsage }) := by
  rcases afterCilium_cases x skip nspace s
    with ⟨hk', _⟩ | ⟨hk', _⟩ | ⟨_, e', w1, hKc, hA⟩ | ⟨_, _, w1, hKc, _⟩ |
      ⟨_, _, w1, rd, w2, hKc, _, _⟩
  · rw [hk] at hk'; cases hk'
  · rw [hk] at hk'; cases hk'
  · rw [hK] at hKc
    cases hKc
    exact hA
  · rw [hK] at hKc; cases hKc
  · rw [hK] at hKc; cases hKc

theorem afterCilium_both_called (x : Externals σ ε ι η) (skip : List String)
    (nspace : String) (s : Run σ ε ι η) (w5 w6 : σ) (rd : Option ε)
    (hk : skip.contains "kubearmor" = false)
    (hd : skip.contains "discoveryengine" = false)
    (hK : x.K8sInstaller nspace s.world = (none, w5))
    (hD : x.DiscoveryEngineInstaller nspace w5 = (rd, w6)) :
    afterCilium x skip nspace s =
      (rd.map .external,
        { world := w6,
          trace := s.trace ++ [.K8sInstaller nspace none, .DiscoveryEngineInstaller nspace rd],
          SilenceUsage := s.SilenceUsage }) := by
  rcases afterCilium_cases x skip nspace s
    with ⟨hk', _⟩ | ⟨hk', _⟩ | ⟨_, e', w1, hKc, _⟩ | ⟨_, hd', _⟩ |
      ⟨_, _, w1, rd', w2, hKc, hDc, hA⟩
  · rw [hk] at hk'; cases hk'
  · rw [hk] at hk'; cases hk'
  · rw [hK] at hKc; cases hKc
  · rw [hd] at hd'; cases hd'
  · rw [hK] at hKc
    cases hKc
    rw [hD] at hDc
    cases hDc
    exact hA

/-- C4: with an empty skip list and a cilium installer `i` whose `Install` call
fails with `e`, `RunE` rolls back, logs, makes the hubble calls, then calls the
kubearmor installer in the world `w4` that `Enable` left and the
discovery-engine installer in the world `w5` that the kubearmor installer
left; when those two calls succeed `RunE` returns `nil`, the final world is
the one the discovery-engine installer left, and the trace is the one
displayed. -/
theorem RunE_install_failure_tolerated (x : Externals σ ε ι η) (nspace : String)
    (w w1 w2 w3 w4 w5 w6 : σ) (i : ι) (e : ε) (h : η) (re : Option ε)
    (hN : x.NewK8sInstaller nspace w = (.ok i, w1))
    (hI : x.Install i w1 = (some e, w2))
    (hH : x.NewK8sHubble (hubbleParams x nspace) (x.RollbackInstallation i w2) = (h, w3))
    (hE : x.Enable h w3 = (re, w4))
    (hK : x.K8sInstaller nspace w4 = (none, w5))
    (hD : x.DiscoveryEngineInstaller nspace w5 = (none, w6)) :
    RunE x [] nspace w =
      (none,
        { world := w6,
          trace :=
            [.NewK8sInstaller nspace (.ok i), .Install i (some e), .RollbackInstallation i,
              .LogError "Unable to install Cilium: %s" e] ++
            .NewK8sHubble (hubbleParams x nspace) h :: enableEvents h re ++
            [.K8sInstaller nspace none, .DiscoveryEngineInstaller nspace none],
          SilenceUsage := true }) := by
  rw [RunE_cilium_path x [] nspace w w1 w2 w3 w4 i (some e) h re rfl rfl hN hI hH hE]
  rw [afterCilium_both_called x [] nspace _ w5 w6 none rfl rfl hK hD]
  simp [installEvents]

theorem RunE_install_failure_tolerated_witness :
    RunE (fixedWorld none (some "timeout") (some "no relay") none none) [] "kube-system" 0 =
      (none,
        { world := 6,
          trace :=
            [.NewK8sInstaller "kube-system" (.ok 7), .Install 7 (some "timeout"),
              .RollbackInstallation 7, .LogError "Unable to install Cilium: %s" "timeout"] ++
            .NewK8sHubble
              (hubbleParams (fixedWorld none (some "timeout") (some "no relay") none none)
                "kube-system") 9 :: enableEvents 9 (some "no relay") ++
            [.K8sInstaller "kube-system" none, .DiscoveryEngineInstaller "kube-system" none],
          SilenceUsage := true }) :=
  RunE_install_failure_tolerated (fixedWorld none (some "timeout") (some "no relay") none none)
    "kube-system" 0 1 2 3 4 5 6 7 "timeout" 9 (some "no relay") rfl rfl rfl rfl rfl rfl

/-- C5 (as stated, refuted): with an empty skip list and a kubearmor installer that
fails with `"image pull"` in every world, `RunE` returns another error, that
of `ci.NewK8sInstaller`, and the kubearmor installer is not called. -/
theorem RunE_kubearmor_not_reached :
    (fixedWorld (some "no cluster") none none (some "image pull") none).K8sInstaller
        "kube-system" 1 = (some "image pull", 2) ∧
      RunE (fixedWorld (some "no cluster") none none (some "image pull") none) []
          "kube-system" 0 =
        (some (.external "no cluster"),
          { world := 1, trace := [.NewK8sInstaller "kube-system" (.error "no cluster")],
            SilenceUsage := false }) := by
  decide

/-- C5 (amended): with an empty skip list, a cilium installer `i` that was
constructed, and a kubearmor installer whose call (made in the world `w4` that
`Enable` left) fails with `e`, `RunE` returns exactly `e`; the final world is
the one the kubearmor installer left, the failed call is the last of the
trace, and the discovery-engine installer is not invoked, whatever `Install`
(`ri`) and `Enable` (`re`) return. -/
theorem RunE_kubearmor_failure_aborts (x : Externals σ ε ι η) (nspace : String)
    (w w1 w2 w3 w4 w5 : σ) (i : ι) (ri : Option ε) (h : η) (re : Option ε) (e : ε)
    (hN : x.NewK8sInstaller nspace w = (.ok i, w1))
    (hI : x.Install i w1 = (ri, w2))
    (hH : x.NewK8sHubble (hubbleParams x nspace) (worldAfterInstall x i ri w2) = (h, w3))
    (hE : x.Enable h w3 = (re, w4))
    (hK : x.K8sInstaller nspace w4 = (some e, w5)) :
    RunE x [] nspace w =
        (some (.external e),
          { world := w5,
            trace := (.NewK8sInstaller nspace (.ok i) :: installEvents i ri ++
              .NewK8sHubble (hubbleParams x nspace) h :: enableEvents h re) ++
              [.K8sInstaller nspace (some e)],
            SilenceUsage := true }) ∧
      (RunE x [] nspace w).2.trace.getLast? = some (.K8sInstaller nspace (some e)) ∧
      ∀ ns r, Event.DiscoveryEngineInstaller ns r ∉ (RunE x [] nspace w).2.trace := by
  rw [RunE_cilium_path x [] nspace w w1 w2 w3 w4 i ri h re rfl rfl hN hI hH hE]
  rw [afterCilium_kubearmor_failed x [] nspace _ w5 e rfl hK]
  refine ⟨rfl, List.getLast?_concat _, ?_⟩
  intro ns r
  cases ri <;> cases re <;> simp [installEvents, enableEvents]

theorem RunE_kubearmor_failure_aborts_witness :
    RunE (fixedWorld none (some "timeout") none (some "image pull") none) [] "kube-system" 0 =
        (some (.external "image pull"),
          { world := 5,
            trace := (.NewK8sInstaller "kube-system" (.ok 7) ::
              installEvents 7 (some "timeout") ++
              .NewK8sHubble
                (hubbleParams (fixedWorld none (some "timeout") none (some "image pull") none)
                  "kube-system") 9 :: enableEvents 9 none) ++
              [.K8sInstaller "kube-system" (some "image pull")],
            SilenceUsage := true }) ∧
      (RunE (fixedWorld none (some "timeout") none (some "image pull") none) [] "kube-system"
        0).2.trace.getLast? = some (.K8sInstaller "kube-system" (some "image pull")) ∧
      ∀ ns r, Event.DiscoveryEngineInstaller ns r ∉
        (RunE (fixedWorld none (some "timeout") none (some "image pull") none) []
          "kube-system" 0).2.trace :=
  RunE_kubearmor_failure_aborts (fixedWorld none (some "timeout") none (some "image pull") none)
    "kube-system" 0 1 2 3 4 5 7 (some "timeout") 9 none "image pull" rfl rfl rfl rfl rfl

/-- C10: when validation passes, cilium is not skipped and the installer `i` was
constructed.  If `Install` fails with `e`, leaving the world `w2`,
`RollbackInstallation` is applied to `i` once, right after the failed
`Install`: the hubble calls are made in the world `x.RollbackInstallation i w2`
and the kubearmor and discovery-engine blocks run from the world that follows;
the trace starts with the construction, the failed `Install` and the rollback
and holds no other rollback.  If `Install` succeeds, `RollbackInstallation` is
not applied: the hubble calls are made in the world `w2` itself and the trace
holds no rollback. -/
theorem RunE_rollback (x : Externals σ ε ι η) (skip : List String) (nspace : String)
    (w w1 w2 w3 w4 : σ) (i : ι) (h : η) (re : Option ε)
    (hv : validateSkipFlagInput skip = none)
    (hc : skip.contains "cilium" = false)
    (hN : x.NewK8sInstaller nspace w = (.ok i, w1))
    (hE : x.Enable h w3 = (re, w4)) :
    (∀ e, x.Install i w1 = (some e, w2) →
      x.NewK8sHubble (hubbleParams x nspace) (x.RollbackInstallation i w2) = (h, w3) →
      RunE x skip nspace w =
        afterCilium x skip nspace
          { world := w4,
            trace := [.NewK8sInstaller nspace (.ok i), .Install i (some e),
              .RollbackInstallation i, .LogError "Unable to install Cilium: %s" e,
              .NewK8sHubble (hubbleParams x nspace) h] ++ enableEvents h re,
            SilenceUsage := true } ∧
      ∃ post, (RunE x skip nspace w).2.trace =
          [.NewK8sInstaller nspace (.ok i), .Install i (some e), .RollbackInstallation i] ++
            post ∧
        ∀ j, Event.RollbackInstallation j ∉ post) ∧
    (x.Install i w1 = (none, w2) →
      x.NewK8sHubble (hubbleParams x nspace) w2 = (h, w3) →
      RunE x skip nspace w =
        afterCilium x skip nspace
          { world := w4,
            trace := [.NewK8sInstaller nspace (.ok i), .Install i none,
              .NewK8sHubble (hubbleParams x nspace) h] ++ enableEvents h re,
            SilenceUsage := true } ∧
      ∀ j, Event.RollbackInstallation j ∉ (RunE x skip nspace w).2.trace) := by
  constructor
  · intro e hI hH
    have hR := RunE_cilium_path x skip nspace w w1 w2 w3 w4 i (some e) h re hv hc hN hI hH hE
    obtain ⟨t, ht, hspec⟩ := afterCilium_spec x skip nspace
      { world := w4, trace := [], SilenceUsage := true }
    have hA := hspec x
      (.NewK8sInstaller nspace (.ok i) :: installEvents i (some e) ++
        .NewK8sHubble (hubbleParams x nspace) h :: enableEvents h re) true rfl rfl
    have hnt : ∀ j, Event.RollbackInstallation j ∉ t := by
      intro j hj
      rcases ht _ hj with ⟨r, hr⟩ | ⟨r, hr⟩ <;> cases hr
    refine ⟨by rw [hR]; simp [installEvents], ?_⟩
    rw [hR, hA]
    refine ⟨.LogError "Unable to install Cilium: %s" e ::
      .NewK8sHubble (hubbleParams x nspace) h :: enableEvents h re ++ t, ?_, ?_⟩
    · simp [installEvents]
    · intro j
      cases re <;> simp [enableEvents, hnt j]
  · intro hI hH
    have hR := RunE_cilium_path x skip nspace w w1 w2 w3 w4 i none h re hv hc hN hI hH hE
    obtain ⟨t, ht, hspec⟩ := afterCilium_spec x skip nspace
      { world := w4, trace := [], SilenceUsage := true }
    have hA := hspec x
      (.NewK8sInstaller nspace (.ok i) :: installEvents i none ++
        .NewK8sHubble (hubbleParams x nspace) h :: enableEvents h re) true rfl rfl
    have hnt : ∀ j, Event.RollbackInstallation j ∉ t := by
      intro j hj
      rcases ht _ hj with ⟨r, hr⟩ | ⟨r, hr⟩ <;> cases hr
    refine ⟨by rw [hR]; simp [installEvents], ?_⟩
    rw [hR, hA]
    intro j
    cases re <;> simp [installEvents, enableEvents, hnt j]

theorem RunE_rollback_witness :
    (RunE (fixedWorld none (some "timeout") none none none) ["discoveryengine"]
          "kube-system" 0 =
        afterCilium (fixedWorld none (some "timeout") none none none) ["discoveryengine"]
          "kube-system"
          { world := 4,
            trace := [.NewK8sInstaller "kube-system" (.ok 7), .Install 7 (some "timeout"),
              .RollbackInstallation 7, .LogError "Unable to install Cilium: %s" "timeout",
              .NewK8sHubble
                (hubbleParams (fixedWorld none (some "timeout") none none none) "kube-system")
                9] ++ enableEvents 9 none,
            SilenceUsage := true } ∧
      ∃ post,
        (RunE (fixedWorld none (some "timeout") none none none) ["discoveryengine"]
            "kube-system" 0).2.trace =
          [.NewK8sInstaller "kube-system" (.ok 7), .Install 7 (some "timeout"),
            .RollbackInstallation 7] ++ post ∧
        ∀ j, Event.RollbackInstallation j ∉ post) ∧
    (RunE (fixedWorld none none none none none) ["discoveryengine"] "kube-system" 0 =
        afterCilium (fixedWorld none none none none none) ["discoveryengine"] "kube-system"
          { world := 3,
            trace := [.NewK8sInstaller "kube-system" (.ok 7), .Install 7 none,
              .NewK8sHubble
                (hubbleParams (fixedWorld none none none none none) "kube-system") 9] ++
              enableEvents 9 none,
            SilenceUsage := true } ∧
      ∀ j, Event.RollbackInstallation j ∉
        (RunE (fixedWorld none none none none none) ["discoveryengine"]
          "kube-system" 0).2.trace) :=
  ⟨(RunE_rollback (fixedWorld none (some "timeout") none none none) ["discoveryengine"]
      "kube-system" 0 1 2 3 4 7 9 none (by decide) (by decide) rfl rfl).1 "timeout" rfl rfl,
    (RunE_rollback (fixedWorld none none none none none) ["discoveryengine"]
      "kube-system" 0 1 2 2 3 7 9 none (by decide) (by decide) rfl rfl).2 rfl rfl⟩

/-- C9 (as stated, refuted): with an empty skip list and a cilium installer whose
`Install` fails, `Enable` is called all the same, after the rollback. -/
theorem hubble_enabled_after_failed_install :
    (RunE (fixedWorld none (some "timeout") none none none) [] "kube-system" 0).2.trace =
      [.NewK8sInstaller "kube-system" (.ok 7), .Install 7 (some "timeout"),
        .RollbackInstallation 7, .LogError "Unable to install Cilium: %s" "timeout",
        .NewK8sHubble
          { Namespace := "kube-system", Relay := true,
            HelmValuesSecretName := "cilium-cli-helm-values", RedactHelmCertKeys := true,
            CreateCA := true } 9,
        .Enable 9 none, .K8sInstaller "kube-system" none,
        .DiscoveryEngineInstaller "kube-system" none] := by
  decide

/-- C9 (amended): when validation passes, cilium is not skipped and the installer
`i` was constructed, `Enable` is called exactly once, after the `Install` call
and whether that call succeeded or failed (`ri`): it is applied to the handle
`h` that `hubble.NewK8sHubble` returned, in the world `w3` that call left, and
the kubearmor and discovery-engine blocks run from the world `w4` that
`Enable` left.  A failure of `Enable` is only logged: the trace holds the
result `re` of `Enable`, followed by the log line when `re` is an error, and
were `Enable` to return any other result `r`, with the same effect on the
world, `RunE` would return the same value and leave the same world, and its
trace would differ in the result of `Enable` and in that log line only. -/
theorem RunE_enable (x : Externals σ ε ι η) (skip : List String) (nspace : String)
    (w w1 w2 w3 w4 : σ) (i : ι) (ri : Option ε) (h : η) (re : Option ε)
    (hv : validateSkipFlagInput skip = none)
    (hc : skip.contains "cilium" = false)
    (hN : x.NewK8sInstaller nspace w = (.ok i, w1))
    (hI : x.Install i w1 = (ri, w2))
    (hH : x.NewK8sHubble (hubbleParams x nspace) (worldAfterInstall x i ri w2) = (h, w3))
    (hE : x.Enable h w3 = (re, w4)) :
    RunE x skip nspace w =
      afterCilium x skip nspace
        { world := w4,
          trace := .NewK8sInstaller nspace (.ok i) :: installEvents i ri ++
            .NewK8sHubble (hubbleParams x nspace) h :: enableEvents h re,
          SilenceUsage := true } ∧
    (∃ pre post,
      (RunE x skip nspace w).2.trace = pre ++ .Enable h re :: post ∧
      .Install i ri ∈ pre ∧
      (∀ h' r', Event.Enable h' r' ∉ pre) ∧
      (∀ h' r', Event.Enable h' r' ∉ post) ∧
      (∀ e, re = some e →
        ∃ rest, post = .LogError "Unable to enable Hubble: %s" e :: rest) ∧
      (re = none → ∀ format e, Event.LogError format e ∉ post)) ∧
    ∀ r,
      (RunE (x.withEnableResult r) skip nspace w).1 = (RunE x skip nspace w).1 ∧
      (RunE (x.withEnableResult r) skip nspace w).2.world = (RunE x skip nspace w).2.world ∧
      (RunE (x.withEnableResult r) skip nspace w).2.trace.filterMap Event.forgetEnableResult =
        (RunE x skip nspace w).2.trace.filterMap Event.forgetEnableResult := by
  have hR := RunE_cilium_path x skip nspace w w1 w2 w3 w4 i ri h re hv hc hN hI hH hE
  obtain ⟨t, ht, hspec⟩ := afterCilium_spec x skip nspace
    { world := w4, trace := [], SilenceUsage := true }
  have hA := hspec x
    (.NewK8sInstaller nspace (.ok i) :: installEvents i ri ++
      .NewK8sHubble (hubbleParams x nspace) h :: enableEvents h re) true rfl rfl
  have hnt : ∀ h' r', Event.Enable h' r' ∉ t := by
    intro h' r' hj
    rcases ht _ hj with ⟨r, hr⟩ | ⟨r, hr⟩ <;> cases hr
  have hnl : ∀ format e, Event.LogError format e ∉ t := by
    intro format e hj
    rcases ht _ hj with ⟨r, hr⟩ | ⟨r, hr⟩ <;> cases hr
  have hft : t.filterMap Event.forgetEnableResult = t := by
    clear hspec hA hnt hnl
    induction t with
    | nil => rfl
    | cons ev t ih =>
      have hev : Event.forgetEnableResult ev = some ev := by
        rcases ht ev (List.mem_cons_self _ _) with ⟨r, hr⟩ | ⟨r, hr⟩ <;> subst hr <;> rfl
      rw [List.filterMap_cons_some hev, ih (fun e he => ht e (List.mem_cons_of_mem _ he))]
  have hfe : ∀ r : Option ε,
      (enableEvents h r : List (Event ε ι η)).filterMap Event.forgetEnableResult =
        [.Enable h none] := by
    intro r
    cases r <;> simp [enableEvents, Event.forgetEnableResult]
  refine ⟨hR, ?_, ?_⟩
  · rw [hR, hA]
    refine ⟨.NewK8sInstaller nspace (.ok i) :: installEvents i ri ++
        [.NewK8sHubble (hubbleParams x nspace) h],
      (enableEvents h re).tail ++ t, ?_, ?_, ?_, ?_, ?_, ?_⟩
    · cases re <;> simp [enableEvents]
    · cases ri <;> simp [installEvents]
    · intro h' r'
      cases ri <;> simp [installEvents]
    · intro h' r'
      cases re <;> simp [enableEvents, hnt h' r']
    · intro e he
      subst he
      exact ⟨t, by simp [enableEvents]⟩
    · intro he format e
      subst he
      simp [enableEvents, hnl format e]
  · intro r
    have hE2 : (x.withEnableResult r).Enable h w3 = (r, w4) := by
      show (r, (x.Enable h w3).2) = (r, w4)
      rw [hE]
    have hR2 := RunE_cilium_path (x.withEnableResult r) skip nspace w w1 w2 w3 w4 i ri h r
      hv hc hN hI hH hE2
    have hA2 := hspec (x.withEnableResult r)
      (.NewK8sInstaller nspace (.ok i) :: installEvents i ri ++
        .NewK8sHubble (hubbleParams x nspace) h :: enableEvents h r) true rfl rfl
    have hA3 : afterCilium (x.withEnableResult r) skip nspace
        { world := w4,
          trace := .NewK8sInstaller nspace (.ok i) :: installEvents i ri ++
            .NewK8sHubble (hubbleParams (x.withEnableResult r) nspace) h :: enableEvents h r,
          SilenceUsage := true } = _ := hA2
    rw [hR, hR2, hA, hA3]
    refine ⟨rfl, rfl, ?_⟩
    simp only [List.filterMap_append, List.filterMap_cons, hfe, hft,
      Event.forgetEnableResult]

theorem RunE_enable_witness :
    RunE (fixedWorld none (some "timeout") (some "no relay") none none) ["kubearmor"]
        "kube-system" 0 =
      afterCilium (fixedWorld none (some "timeout") (some "no relay") none none) ["kubearmor"]
        "kube-system"
        { world := 4,
          trace := .NewK8sInstaller "kube-system" (.ok 7) ::
            installEvents 7 (some "timeout") ++
            .NewK8sHubble
              (hubbleParams (fixedWorld none (some "timeout") (some "no relay") none none)
                "kube-system") 9 :: enableEvents 9 (some "no relay"),
          SilenceUsage := true } ∧
    (∃ pre post,
      (RunE (fixedWorld none (some "timeout") (some "no relay") none none) ["kubearmor"]
        "kube-system" 0).2.trace = pre ++ .Enable 9 (some "no relay") :: post ∧
      .Install 7 (some "timeout") ∈ pre ∧
      (∀ h' r', Event.Enable h' r' ∉ pre) ∧
      (∀ h' r', Event.Enable h' r' ∉ post) ∧
      (∀ e, some "no relay" = some e →
        ∃ rest, post = .LogError "Unable to enable Hubble: %s" e :: rest) ∧
      (some "no relay" = none → ∀ format e, Event.LogError format e ∉ post)) ∧
    ∀ r,
      (RunE ((fixedWorld none (some "timeout") (some "no relay") none none).withEnableResult r)
        ["kubearmor"] "kube-system" 0).1 =
        (RunE (fixedWorld none (some "timeout") (some "no relay") none none) ["kubearmor"]
          "kube-system" 0).1 ∧
      (RunE ((fixedWorld none (some "timeout") (some "no relay") none none).withEnableResult r)
        ["kubearmor"] "kube-system" 0).2.world =
        (RunE (fixedWorld none (some "timeout") (some "no relay") none none) ["kubearmor"]
          "kube-system" 0).2.world ∧
      (RunE ((fixedWorld none (some "timeout") (some "no relay") none none).withEnableResult r)
        ["kubearmor"] "kube-system" 0).2.trace.filterMap Event.forgetEnableResult =
        (RunE (fixedWorld none (some "timeout") (some "no relay") none none) ["kubearmor"]
          "kube-system" 0).2.trace.filterMap Event.forgetEnableResult :=
  RunE_enable (fixedWorld none (some "timeout") (some "no relay") none none) ["kubearmor"]
    "kube-system" 0 1 2 3 4 7 (some "timeout") 9 (some "no relay") (by decide) (by decide)
    rfl rfl rfl rfl

end installCmd

end Cmd
